import Mathlib

/-!
Shallow embedding of `pcsx2/GS/Renderers/Common/GSFunctionMap.h`.

The file models the generic lazy JIT function cache `GSFunctionMap`
(per-key statistics record `ActivePtr`, `operator[]`, `UpdateStats`,
`PrintStats`) and its code-generating specialization
`GSCodeGeneratorFunctionMap` (`GetDefaultFunction` with the uint64-keyed
dedup index `m_cgmap`, backed by the `GSCodeBuffer` arena).

Modelling conventions:
* `uint64` fields are natural numbers reduced mod `2 ^ 64` at each update
  (`U64` below); the sentinel `(uint64)-1` is `U64 - 1`.
* The `int` statistic arguments of `UpdateStats` are modelled as natural
  numbers (the callers supply non-negative counts).
* The compiled `VALUE` (a function pointer into the arena) is modelled as
  the arena offset at which the code was emitted, a natural number.
* The instruction-encoding backend `CG` is an opaque external collaborator;
  it is modelled as a function `gen : KEY → Option (List Nat)` giving the
  byte sequence it emits for a key (`none` models a backend that fails,
  i.e. throws, for that key).  `cg->getSize()` is the length of that list
  and `cg->getCode()` is the start of the buffer it was written to.
* The `KEY → uint64` conversion used to index `m_cgmap` is an explicit
  parameter `toU64 : KEY → Nat`.
* C++ exceptions propagating out of `GetDefaultFunction` / `operator[]`
  are modelled with `Except Unit`; the debug `ASSERT` on the emitted size
  is modelled as the error outcome of generation.
-/

instance {ε α : Type} [DecidableEq ε] [DecidableEq α] : DecidableEq (Except ε α) :=
  fun a b =>
  match a, b with
  | Except.error x, Except.error y => decidable_of_iff (x = y) (by simp)
  | Except.error _, Except.ok _ => Decidable.isFalse (fun h => Except.noConfusion h)
  | Except.ok _, Except.error _ => Decidable.isFalse (fun h => Except.noConfusion h)
  | Except.ok x, Except.ok y => decidable_of_iff (x = y) (by simp)

/-- The modulus of `uint64` arithmetic, `2 ^ 64`. -/
def U64 : Nat := 18446744073709551616

/-- `enum { MAX_SIZE = 8192 }` (GSFunctionMap.h:172): bytes reserved from
the code buffer for one generation attempt. -/
def MAX_SIZE : Nat := 8192

/-- Per-key record `GSFunctionMap::ActivePtr` (GSFunctionMap.h:30-35):
`uint64 frame, frames, prims, ticks, actual, total` and the cached compiled
function `f` (modelled by its code address). -/
structure ActivePtr where
  frame : Nat
  frames : Nat
  prims : Nat
  ticks : Nat
  actual : Nat
  total : Nat
  f : Nat
deriving DecidableEq

/-- State owned by `GSCodeGeneratorFunctionMap` (GSFunctionMap.h:163-173):
the dedup index `m_cgmap : unordered_map<uint64, VALUE>`, the arena cursor of
`m_cb` (`GSCodeBuffer`), the diagnostic byte counter `m_total_code_size`, and
`genCount`, an observer counting backend invocations (one per `new CG(...)`,
GSFunctionMap.h:203) — the "generation events" of the specification. -/
structure CGState where
  m_cgmap : List (Nat × Nat)
  cursor : Nat
  m_total_code_size : Nat
  genCount : Nat
deriving DecidableEq

/-- State of one `GSFunctionMap` instance specialized by
`GSCodeGeneratorFunctionMap`: the entry table `m_map_active`
(GSFunctionMap.h:37), the active-entry handle `m_active`
(GSFunctionMap.h:39, modelled by the key of the entry it points to), and
the subclass state. -/
structure GSMapState (K : Type) where
  m_map_active : List (K × ActivePtr)
  m_active : Option K
  cg : CGState
deriving DecidableEq

/-- Association-list lookup, modelling `unordered_map::find`. -/
def alookup {α β : Type} [DecidableEq α] : List (α × β) → α → Option β
  | [], _ => none
  | (a, b) :: rest, key => if key = a then some b else alookup rest key

/-- Update the value stored at `key` (first occurrence), modelling a write
through the pointer obtained from `unordered_map::find`. -/
def replaceEntry {α β : Type} [DecidableEq α] :
    List (α × β) → α → (β → β) → List (α × β)
  | [], _, _ => []
  | (a, b) :: rest, key, g =>
    if key = a then (a, g b) :: rest else (a, b) :: replaceEntry rest key g

/-- A freshly created entry: `new ActivePtr()`, `memset(p, 0, sizeof(*p))`,
`p->frame = (uint64)-1`, `p->f = v` (GSFunctionMap.h:67-73). -/
def freshEntry (v : Nat) : ActivePtr :=
  { frame := U64 - 1, frames := 0, prims := 0, ticks := 0, actual := 0,
    total := 0, f := v }

/-- `GSCodeGeneratorFunctionMap::GetDefaultFunction` (GSFunctionMap.h:189-264).
Looks up `(uint64)key` in the dedup index `m_cgmap`; on a hit it returns the
already-materialized function with no backend invocation and no arena use.
Otherwise it reserves `MAX_SIZE` bytes from the arena (`m_cb.GetBuffer`,
modelled from the spec: Reserve returns the current cursor without advancing
it), invokes the backend, checks `ASSERT(cg->getSize() < MAX_SIZE)`
(GSFunctionMap.h:204; failure is the overflow fault, `Except.error`), adds
the emitted size to `m_total_code_size`, commits exactly the emitted size
(`m_cb.ReleaseBuffer(cg->getSize())`, modelled from the spec: Commit advances
the cursor by the actual size), and records the new function in `m_cgmap`.
A backend failure (`gen key = none`, a throwing `CG` constructor) propagates
as `Except.error` with no state change. -/
def getDefaultFunction {K : Type} (toU64 : K → Nat)
    (gen : K → Option (List Nat)) (cg : CGState) (key : K) :
    Except Unit (Nat × CGState) :=
  match alookup cg.m_cgmap (toU64 key) with
  | some v => Except.ok (v, cg)
  | none =>
    match gen key with
    | none => Except.error ()
    | some bytes =>
      if bytes.length < MAX_SIZE then
        Except.ok (cg.cursor,
          { m_cgmap := (toU64 key, cg.cursor) :: cg.m_cgmap,
            cursor := cg.cursor + bytes.length,
            m_total_code_size := cg.m_total_code_size + bytes.length,
            genCount := cg.genCount + 1 })
      else Except.error ()

/-- `GSFunctionMap::operator[]` (GSFunctionMap.h:55-81), the spec's `Lookup`.
Clears `m_active`, then on a table hit marks the found entry active and
returns its function; on a miss it creates a fresh entry, fills its function
from `GetDefaultFunction`, inserts it, marks it active and returns the
function.  If `GetDefaultFunction` fails the exception propagates before the
insertion (GSFunctionMap.h:73 precedes 75), so the table is unchanged and
`m_active` stays cleared. -/
def lookup {K : Type} [DecidableEq K] (toU64 : K → Nat)
    (gen : K → Option (List Nat)) (s : GSMapState K) (key : K) :
    Except Unit Nat × GSMapState K :=
  match alookup s.m_map_active key with
  | some e => (Except.ok e.f, { s with m_active := some key })
  | none =>
    match getDefaultFunction toU64 gen s.cg key with
    | Except.error _ => (Except.error (), { s with m_active := none })
    | Except.ok (v, cg') =>
      (Except.ok v,
        { m_map_active := (key, freshEntry v) :: s.m_map_active,
          m_active := some key,
          cg := cg' })

/-- One argument tuple of `UpdateStats(uint64 frame, uint64 ticks,
int actual, int total, int prims)` (GSFunctionMap.h:83), the spec's
`RecordUsage(epoch, ticks, items_processed, items_attempted, work_units)`. -/
structure Call where
  frame : Nat
  ticks : Nat
  actual : Nat
  total : Nat
  prims : Nat
deriving DecidableEq

/-- Effect of `GSFunctionMap::UpdateStats` (GSFunctionMap.h:85-97) on the
active entry: bump `frames` when the epoch differs from the stored
`frame`, then accumulate `prims`, `ticks`, `actual`, `total`. -/
def updateEntry (e : ActivePtr) (c : Call) : ActivePtr :=
  let e1 := if e.frame ≠ c.frame % U64 then
      { e with frame := c.frame % U64, frames := (e.frames + 1) % U64 }
    else e
  { e1 with prims := (e1.prims + c.prims) % U64,
            ticks := (e1.ticks + c.ticks) % U64,
            actual := (e1.actual + c.actual) % U64,
            total := (e1.total + c.total) % U64 }

/-- `GSFunctionMap::UpdateStats` (GSFunctionMap.h:83-100): no-op when no
entry is active, otherwise updates the entry `m_active` points to. -/
def updateStats {K : Type} [DecidableEq K] (s : GSMapState K)
    (frame ticks actual total prims : Nat) : GSMapState K :=
  match s.m_active with
  | none => s
  | some k =>
    { s with m_map_active := (replaceEntry s.m_map_active k
        (fun e => updateEntry e ⟨frame, ticks, actual, total, prims⟩)) }

/-- A sequence of `UpdateStats` calls all routed to one entry. -/
def runCalls (e : ActivePtr) (cs : List Call) : ActivePtr :=
  cs.foldl updateEntry e

/-- Number of calls in `cs` whose (truncated) epoch differs from the epoch
stored just before the call, starting from stored epoch `fr`: exactly the
number of `m_active->frames++` executions (GSFunctionMap.h:87-91). -/
def changeCount : Nat → List Call → Nat
  | _, [] => 0
  | fr, c :: cs =>
    (if fr ≠ c.frame % U64 then 1 else 0) + changeCount (c.frame % U64) cs

/-- The epoch stored in the entry after processing `cs` from stored epoch
`fr`. -/
def endFrame (fr : Nat) (cs : List Call) : Nat :=
  cs.foldl (fun _ c => c.frame % U64) fr

/-- Sum of the `ticks` arguments of a call sequence. -/
def sumTicks (cs : List Call) : Nat := (cs.map Call.ticks).sum

/-- Sum of the `actual` (items processed) arguments of a call sequence. -/
def sumActual (cs : List Call) : Nat := (cs.map Call.actual).sum

/-- Sum of the `total` (items attempted) arguments of a call sequence. -/
def sumTotal (cs : List Call) : Nat := (cs.map Call.total).sum

/-- Sum of the `prims` (work units) arguments of a call sequence. -/
def sumPrims (cs : List Call) : Nat := (cs.map Call.prims).sum

/-- Grand total `ttpf` computed by the first loop of `PrintStats`
(GSFunctionMap.h:104-114): sum of `p->ticks / p->frames` over entries with
nonzero `frames`. -/
def ttpfOf {K : Type} (s : GSMapState K) : Nat :=
  (s.m_map_active.map
    (fun kv => if kv.2.frames ≠ 0 then kv.2.ticks / kv.2.frames else 0)).sum

/-- Row filter of the printing loop of `PrintStats` (GSFunctionMap.h:130):
`p->frames && p->actual && ttpf`.  It does not test `p->prims`, the divisor
of the `#/prim` column `p->actual / p->prims` (GSFunctionMap.h:144). -/
def rowFilter {K : Type} (s : GSMapState K) (e : ActivePtr) : Bool :=
  (e.frames != 0) && (e.actual != 0) && (ttpfOf s != 0)

/-- The entries `PrintStats` prints a row for. -/
def reportRows {K : Type} (s : GSMapState K) : List (K × ActivePtr) :=
  s.m_map_active.filter (fun kv => rowFilter s kv.2)

/-- The keys appearing in the report. -/
def reportKeys {K : Type} (s : GSMapState K) : List K :=
  (reportRows s).map Prod.fst

/-- Initial state of the subclass: empty dedup index, arena cursor at the
start, `m_total_code_size(0)` (GSFunctionMap.h:175-180). -/
def initCG : CGState :=
  { m_cgmap := [], cursor := 0, m_total_code_size := 0, genCount := 0 }

/-- Initial cache state: empty table and `m_active(NULL)`
(GSFunctionMap.h:44-47). -/
def initState (K : Type) : GSMapState K :=
  { m_map_active := [], m_active := none, cg := initCG }

/-- A backend stub emitting the same single byte (0x90, `nop`) for every
key: distinct keys produce byte-identical instruction sequences. -/
def genOne : Nat → Option (List Nat) := fun _ => some [144]

/-- A backend stub that fails (throws) for every key. -/
def genNone : Nat → Option (List Nat) := fun _ => none

/-- A backend stub reporting an oversized emission: exactly `MAX_SIZE`
bytes, which violates the strict bound. -/
def genBig : Nat → Option (List Nat) := fun _ => some (List.replicate MAX_SIZE 0)

/-- A key-to-uint64 conversion under which the distinct keys 0 and 2
coincide, as happens when the KEY type distinguishes more than its uint64
image does. -/
def mod2 : Nat → Nat := fun k => k % 2

/-!
Helper lemmas: pointwise description of `updateEntry`, exact-value laws for
call sequences under no-overflow bounds, and association-list facts.
-/

theorem updateEntry_frame (e : ActivePtr) (c : Call) :
    (updateEntry e c).frame = c.frame % U64 := by
  by_cases h : e.frame ≠ c.frame % U64
  · simp only [updateEntry, if_pos h]
  · simp only [updateEntry, if_neg h]
    push_neg at h
    exact h

theorem updateEntry_frames (e : ActivePtr) (c : Call) :
    (updateEntry e c).frames =
      if e.frame ≠ c.frame % U64 then (e.frames + 1) % U64 else e.frames := by
  by_cases h : e.frame ≠ c.frame % U64
  · simp only [updateEntry, if_pos h]
  · simp only [updateEntry, if_neg h]

theorem updateEntry_ticks (e : ActivePtr) (c : Call) :
    (updateEntry e c).ticks = (e.ticks + c.ticks) % U64 := by
  simp only [updateEntry]
  split <;> rfl

theorem updateEntry_actual (e : ActivePtr) (c : Call) :
    (updateEntry e c).actual = (e.actual + c.actual) % U64 := by
  simp only [updateEntry]
  split <;> rfl

theorem updateEntry_total (e : ActivePtr) (c : Call) :
    (updateEntry e c).total = (e.total + c.total) % U64 := by
  simp only [updateEntry]
  split <;> rfl

theorem updateEntry_prims (e : ActivePtr) (c : Call) :
    (updateEntry e c).prims = (e.prims + c.prims) % U64 := by
  simp only [updateEntry]
  split <;> rfl

theorem updateEntry_f (e : ActivePtr) (c : Call) :
    (updateEntry e c).f = e.f := by
  simp only [updateEntry]
  split <;> rfl

theorem runCalls_nil (e : ActivePtr) : runCalls e [] = e := rfl

theorem runCalls_cons (e : ActivePtr) (c : Call) (cs : List Call) :
    runCalls e (c :: cs) = runCalls (updateEntry e c) cs := rfl

theorem runCalls_append (e : ActivePtr) (xs ys : List Call) :
    runCalls e (xs ++ ys) = runCalls (runCalls e xs) ys := by
  simp [runCalls, List.foldl_append]

theorem endFrame_cons (fr : Nat) (c : Call) (cs : List Call) :
    endFrame fr (c :: cs) = endFrame (c.frame % U64) cs := rfl

theorem runCalls_frame (cs : List Call) : ∀ e : ActivePtr,
    (runCalls e cs).frame = endFrame e.frame cs := by
  induction cs with
  | nil => intro e; rfl
  | cons c cs ih =>
    intro e
    rw [runCalls_cons, ih, endFrame_cons, updateEntry_frame]

theorem sumTicks_cons (c : Call) (cs : List Call) :
    sumTicks (c :: cs) = c.ticks + sumTicks cs := by simp [sumTicks]

theorem sumActual_cons (c : Call) (cs : List Call) :
    sumActual (c :: cs) = c.actual + sumActual cs := by simp [sumActual]

theorem sumTotal_cons (c : Call) (cs : List Call) :
    sumTotal (c :: cs) = c.total + sumTotal cs := by simp [sumTotal]

theorem sumPrims_cons (c : Call) (cs : List Call) :
    sumPrims (c :: cs) = c.prims + sumPrims cs := by simp [sumPrims]

theorem sumTicks_append (xs ys : List Call) :
    sumTicks (xs ++ ys) = sumTicks xs + sumTicks ys := by simp [sumTicks]

theorem sumActual_append (xs ys : List Call) :
    sumActual (xs ++ ys) = sumActual xs + sumActual ys := by simp [sumActual]

theorem sumTotal_append (xs ys : List Call) :
    sumTotal (xs ++ ys) = sumTotal xs + sumTotal ys := by simp [sumTotal]

theorem sumPrims_append (xs ys : List Call) :
    sumPrims (xs ++ ys) = sumPrims xs + sumPrims ys := by simp [sumPrims]

theorem changeCount_cons (fr : Nat) (c : Call) (cs : List Call) :
    changeCount fr (c :: cs) =
      (if fr ≠ c.frame % U64 then 1 else 0) + changeCount (c.frame % U64) cs := rfl

theorem changeCount_le_length (cs : List Call) : ∀ fr : Nat,
    changeCount fr cs ≤ cs.length := by
  induction cs with
  | nil => intro fr; simp [changeCount]
  | cons c cs ih =>
    intro fr
    simp only [changeCount, List.length_cons]
    have := ih (c.frame % U64)
    split <;> omega

theorem changeCount_append (xs : List Call) : ∀ (fr : Nat) (ys : List Call),
    changeCount fr (xs ++ ys) =
      changeCount fr xs + changeCount (endFrame fr xs) ys := by
  induction xs with
  | nil => intro fr ys; simp [changeCount, endFrame]
  | cons c xs ih =>
    intro fr ys
    simp only [List.cons_append, changeCount_cons, endFrame_cons, ih (c.frame % U64) ys]
    omega

theorem runCalls_frames (cs : List Call) : ∀ e : ActivePtr,
    e.frames + cs.length < U64 →
    (runCalls e cs).frames = e.frames + changeCount e.frame cs := by
  induction cs with
  | nil => intro e _; simp [runCalls, changeCount]
  | cons c cs ih =>
    intro e h
    rw [runCalls_cons]
    simp only [List.length_cons] at h
    by_cases hc : e.frame ≠ c.frame % U64
    · have h1 : e.frames + 1 < U64 := by omega
      have hf : (updateEntry e c).frames = e.frames + 1 := by
        rw [updateEntry_frames, if_pos hc, Nat.mod_eq_of_lt h1]
      rw [ih (updateEntry e c) (by rw [hf]; omega), hf, updateEntry_frame]
      simp only [changeCount, if_pos hc]
      omega
    · have hf : (updateEntry e c).frames = e.frames := by
        rw [updateEntry_frames, if_neg hc]
      have hfr : c.frame % U64 = e.frame := by push_neg at hc; exact hc.symm
      rw [ih (updateEntry e c) (by rw [hf]; omega), hf, updateEntry_frame]
      simp [changeCount_cons, hfr]

theorem runCalls_ticks (cs : List Call) : ∀ e : ActivePtr,
    e.ticks + sumTicks cs < U64 →
    (runCalls e cs).ticks = e.ticks + sumTicks cs := by
  induction cs with
  | nil => intro e _; simp [runCalls, sumTicks]
  | cons c cs ih =>
    intro e h
    rw [sumTicks_cons] at h
    have hstep : (updateEntry e c).ticks = e.ticks + c.ticks := by
      rw [updateEntry_ticks, Nat.mod_eq_of_lt (by omega)]
    rw [runCalls_cons, ih (updateEntry e c) (by rw [hstep]; omega), hstep,
      sumTicks_cons]
    omega

theorem runCalls_actual (cs : List Call) : ∀ e : ActivePtr,
    e.actual + sumActual cs < U64 →
    (runCalls e cs).actual = e.actual + sumActual cs := by
  induction cs with
  | nil => intro e _; simp [runCalls, sumActual]
  | cons c cs ih =>
    intro e h
    rw [sumActual_cons] at h
    have hstep : (updateEntry e c).actual = e.actual + c.actual := by
      rw [updateEntry_actual, Nat.mod_eq_of_lt (by omega)]
    rw [runCalls_cons, ih (updateEntry e c) (by rw [hstep]; omega), hstep,
      sumActual_cons]
    omega

theorem runCalls_total (cs : List Call) : ∀ e : ActivePtr,
    e.total + sumTotal cs < U64 →
    (runCalls e cs).total = e.total + sumTotal cs := by
  induction cs with
  | nil => intro e _; simp [runCalls, sumTotal]
  | cons c cs ih =>
    intro e h
    rw [sumTotal_cons] at h
    have hstep : (updateEntry e c).total = e.total + c.total := by
      rw [updateEntry_total, Nat.mod_eq_of_lt (by omega)]
    rw [runCalls_cons, ih (updateEntry e c) (by rw [hstep]; omega), hstep,
      sumTotal_cons]
    omega

theorem runCalls_prims (cs : List Call) : ∀ e : ActivePtr,
    e.prims + sumPrims cs < U64 →
    (runCalls e cs).prims = e.prims + sumPrims cs := by
  induction cs with
  | nil => intro e _; simp [runCalls, sumPrims]
  | cons c cs ih =>
    intro e h
    rw [sumPrims_cons] at h
    have hstep : (updateEntry e c).prims = e.prims + c.prims := by
      rw [updateEntry_prims, Nat.mod_eq_of_lt (by omega)]
    rw [runCalls_cons, ih (updateEntry e c) (by rw [hstep]; omega), hstep,
      sumPrims_cons]
    omega

theorem sumActual_le_sumTotal (cs : List Call)
    (h : ∀ c ∈ cs, c.actual ≤ c.total) : sumActual cs ≤ sumTotal cs := by
  induction cs with
  | nil => simp [sumActual, sumTotal]
  | cons c cs ih =>
    rw [sumActual_cons, sumTotal_cons]
    have h1 := h c (List.mem_cons_self c cs)
    have h2 := ih (fun c' hc' => h c' (List.mem_cons_of_mem c hc'))
    omega

theorem alookup_replaceEntry_self {α β : Type} [DecidableEq α]
    (l : List (α × β)) (k : α) (g : β → β) :
    alookup (replaceEntry l k g) k = (alookup l k).map g := by
  induction l with
  | nil => rfl
  | cons p l ih =>
    obtain ⟨a, b⟩ := p
    by_cases h : k = a
    · simp [replaceEntry, alookup, h]
    · simp [replaceEntry, alookup, h, ih]

theorem alookup_replaceEntry_ne {α β : Type} [DecidableEq α]
    (l : List (α × β)) (k k' : α) (g : β → β) (h : k' ≠ k) :
    alookup (replaceEntry l k g) k' = alookup l k' := by
  induction l with
  | nil => rfl
  | cons p l ih =>
    obtain ⟨a, b⟩ := p
    by_cases hk : k = a
    · subst hk
      simp [replaceEntry, alookup, h]
    · by_cases hk' : k' = a
      · simp [replaceEntry, alookup, hk, hk']
      · simp [replaceEntry, alookup, hk, hk', ih]

theorem alookup_none_not_mem_fst {α β : Type} [DecidableEq α]
    (l : List (α × β)) (k : α) (h : alookup l k = none) :
    ∀ p ∈ l, p.1 ≠ k := by
  induction l with
  | nil => intro p hp; cases hp
  | cons q l ih =>
    obtain ⟨a, b⟩ := q
    intro p hp
    rw [List.mem_cons] at hp
    by_cases hk : k = a
    · simp [alookup, hk] at h
    · rcases hp with rfl | hp
      · exact fun hh => hk hh.symm
      · exact ih (by simpa [alookup, hk] using h) p hp

theorem setActive_eta {K : Type} (s : GSMapState K) (k : K)
    (h : s.m_active = some k) :
    ({ s with m_active := some k } : GSMapState K) = s := by
  cases s
  simp only at h
  simp [h]

theorem lookup_hit {K : Type} [DecidableEq K] (toU64 : K → Nat)
    (gen : K → Option (List Nat)) (s : GSMapState K) (key : K) (e : ActivePtr)
    (h : alookup s.m_map_active key = some e) :
    lookup toU64 gen s key = (Except.ok e.f, { s with m_active := some key }) := by
  simp [lookup, h]

theorem lookup_ok_dest {K : Type} [DecidableEq K] (toU64 : K → Nat)
    (gen : K → Option (List Nat)) (s s1 : GSMapState K) (key : K) (v : Nat)
    (h : lookup toU64 gen s key = (Except.ok v, s1)) :
    s1.m_active = some key ∧
      ∃ e, alookup s1.m_map_active key = some e ∧ e.f = v := by
  unfold lookup at h
  cases halk : alookup s.m_map_active key with
  | some e =>
    rw [halk] at h
    simp only [Prod.mk.injEq, Except.ok.injEq] at h
    obtain ⟨hv, hs⟩ := h
    subst hs
    exact ⟨rfl, e, halk, hv⟩
  | none =>
    rw [halk] at h
    cases hg : getDefaultFunction toU64 gen s.cg key with
    | error u =>
      rw [hg] at h
      simp at h
    | ok p =>
      obtain ⟨w, cg'⟩ := p
      rw [hg] at h
      simp only [Prod.mk.injEq, Except.ok.injEq] at h
      obtain ⟨hv, hs⟩ := h
      subst hs
      subst hv
      refine ⟨rfl, freshEntry w, ?_, rfl⟩
      simp [alookup]

theorem lookup_preserves_present {K : Type} [DecidableEq K] (toU64 : K → Nat)
    (gen : K → Option (List Nat)) (s : GSMapState K) (k k' : K) (e : ActivePtr)
    (h : alookup s.m_map_active k' = some e) :
    alookup (lookup toU64 gen s k).2.m_map_active k' = some e := by
  unfold lookup
  cases halk : alookup s.m_map_active k with
  | some q => simpa using h
  | none =>
    cases hg : getDefaultFunction toU64 gen s.cg k with
    | error u => simpa using h
    | ok p =>
      obtain ⟨w, cg'⟩ := p
      have hne : k' ≠ k := by
        intro hh
        rw [hh, halk] at h
        cases h
      simp [alookup, hne, h]

theorem lookup_miss_ok_dest {K : Type} [DecidableEq K] (toU64 : K → Nat)
    (gen : K → Option (List Nat)) (s s1 : GSMapState K) (k : K) (v : Nat)
    (hfresh : alookup s.m_map_active k = none)
    (h : lookup toU64 gen s k = (Except.ok v, s1)) :
    ∃ cg', s1 = ⟨(k, freshEntry v) :: s.m_map_active, some k, cg'⟩ := by
  unfold lookup at h
  rw [hfresh] at h
  cases hg : getDefaultFunction toU64 gen s.cg k with
  | error u =>
    rw [hg] at h
    simp at h
  | ok p =>
    obtain ⟨w, cg'⟩ := p
    rw [hg] at h
    simp only [Prod.mk.injEq, Except.ok.injEq] at h
    obtain ⟨hv, hs⟩ := h
    subst hv
    exact ⟨cg', hs.symm⟩

theorem updateEntry_fresh_sentinel (v t a tot p : Nat) :
    updateEntry (freshEntry v) ⟨U64 - 1, t, a, tot, p⟩
      = ⟨U64 - 1, 0, p % U64, t % U64, a % U64, tot % U64, v⟩ := by
  have hlt : U64 - 1 < U64 := by decide
  simp [updateEntry, freshEntry, Nat.mod_eq_of_lt hlt]

/-!
Claim theorems.
-/

/-- CLAIM C1, counterexample.  The dedup index is keyed by `(uint64)key`
only; the generated bytes are never compared.  With the identity key
conversion, the distinct keys 0 and 1 make the backend emit byte-identical
instruction sequences (`genOne`), yet `Lookup(0)` and `Lookup(1)` return
distinct function identities (addresses 0 and 1) and two generation events
occur, refuting the claim that byte-identical generation implies one shared
function and a single generation event. -/
theorem byte_identical_codegen_not_deduped :
    genOne 0 = genOne 1
    ∧ (0 : Nat) ≠ 1
    ∧ (lookup id genOne (initState Nat) 0).1 = Except.ok 0
    ∧ (lookup id genOne ((lookup id genOne (initState Nat) 0).2) 1).1 = Except.ok 1
    ∧ (Except.ok 0 : Except Unit Nat) ≠ Except.ok 1
    ∧ (lookup id genOne ((lookup id genOne (initState Nat) 0).2) 1).2.cg.genCount = 2 := by
  decide

/-- CLAIM C1, amended.  For distinct keys `k1 ≠ k2` that coincide under the
dedup index's key conversion (`toU64 k1 = toU64 k2`, the code's proxy for
"compile to the same code"), with `k1` not yet generated: `Lookup(k1)` and
`Lookup(k2)` return the same function identity and only one generation event
occurs in total. -/
theorem dedup_shares_on_equal_u64_key {K : Type} [DecidableEq K]
    (toU64 : K → Nat) (gen : K → Option (List Nat)) (s : GSMapState K)
    (k1 k2 : K) (b : List Nat)
    (hne : k1 ≠ k2)
    (h1 : alookup s.m_map_active k1 = none)
    (h2 : alookup s.m_map_active k2 = none)
    (hcg : alookup s.cg.m_cgmap (toU64 k1) = none)
    (hu : toU64 k1 = toU64 k2)
    (hgen : gen k1 = some b) (hsz : b.length < MAX_SIZE) :
    ∃ v s1 s2,
      lookup toU64 gen s k1 = (Except.ok v, s1)
      ∧ lookup toU64 gen s1 k2 = (Except.ok v, s2)
      ∧ s2.cg.genCount = s.cg.genCount + 1 := by
  have hgdf1 : getDefaultFunction toU64 gen s.cg k1 = Except.ok (s.cg.cursor,
      { m_cgmap := (toU64 k1, s.cg.cursor) :: s.cg.m_cgmap,
        cursor := s.cg.cursor + b.length,
        m_total_code_size := s.cg.m_total_code_size + b.length,
        genCount := s.cg.genCount + 1 }) := by
    simp only [getDefaultFunction, hcg, hgen]
    rw [if_pos hsz]
  have hl1 : lookup toU64 gen s k1 = (Except.ok s.cg.cursor,
      { m_map_active := (k1, freshEntry s.cg.cursor) :: s.m_map_active,
        m_active := some k1,
        cg := { m_cgmap := (toU64 k1, s.cg.cursor) :: s.cg.m_cgmap,
                cursor := s.cg.cursor + b.length,
                m_total_code_size := s.cg.m_total_code_size + b.length,
                genCount := s.cg.genCount + 1 } }) := by
    simp [lookup, h1, hgdf1]
  have hne' : ¬(k2 = k1) := fun hh => hne hh.symm
  have hl2 : lookup toU64 gen
      ({ m_map_active := (k1, freshEntry s.cg.cursor) :: s.m_map_active,
         m_active := some k1,
         cg := { m_cgmap := (toU64 k1, s.cg.cursor) :: s.cg.m_cgmap,
                 cursor := s.cg.cursor + b.length,
                 m_total_code_size := s.cg.m_total_code_size + b.length,
                 genCount := s.cg.genCount + 1 } } : GSMapState K) k2
      = (Except.ok s.cg.cursor,
        { m_map_active := (k2, freshEntry s.cg.cursor) ::
            (k1, freshEntry s.cg.cursor) :: s.m_map_active,
          m_active := some k2,
          cg := { m_cgmap := (toU64 k1, s.cg.cursor) :: s.cg.m_cgmap,
                  cursor := s.cg.cursor + b.length,
                  m_total_code_size := s.cg.m_total_code_size + b.length,
                  genCount := s.cg.genCount + 1 } }) := by
    simp [lookup, getDefaultFunction, alookup, hne', h2, ← hu]
  exact ⟨s.cg.cursor, _, _, hl1, hl2, rfl⟩

/-- Witness for the amended C1 theorem: under `mod2` the distinct keys 0 and
2 coincide, the second lookup returns the function generated for the first,
and exactly one generation event has occurred. -/
theorem dedup_shares_on_equal_u64_key_witness :
    (lookup mod2 genOne ((lookup mod2 genOne (initState Nat) 0).2) 2).1
      = (lookup mod2 genOne (initState Nat) 0).1
    ∧ (lookup mod2 genOne ((lookup mod2 genOne (initState Nat) 0).2) 2).2.cg.genCount = 1 := by
  obtain ⟨v, s1, s2, ha, hb, hc⟩ := dedup_shares_on_equal_u64_key mod2 genOne
    (initState Nat) 0 2 [144] (by decide) rfl rfl rfl rfl rfl (by decide)
  have e2 : (lookup mod2 genOne (initState Nat) 0).2 = s1 := by rw [ha]
  have e1 : (lookup mod2 genOne (initState Nat) 0).1 = Except.ok v := by rw [ha]
  rw [e2, hb, e1]
  exact ⟨rfl, by simpa using hc⟩

/-- CLAIM C2, counterexample.  On a fresh entry the epoch sequence 1, 2, 1
produces `period_count = 3` although only 2 distinct epoch values were seen:
`frames` is bumped on every call whose epoch differs from the previous one,
so `period_count` is not bounded by the number of distinct epoch values. -/
theorem period_count_exceeds_distinct_epochs :
    (runCalls (freshEntry 0)
        [⟨1, 0, 0, 0, 0⟩, ⟨2, 0, 0, 0, 0⟩, ⟨1, 0, 0, 0, 0⟩]).frames = 3
    ∧ ([1, 2, 1] : List Nat).toFinset.card = 2
    ∧ ¬((runCalls (freshEntry 0)
          [⟨1, 0, 0, 0, 0⟩, ⟨2, 0, 0, 0, 0⟩, ⟨1, 0, 0, 0, 0⟩]).frames
        - (freshEntry 0).frames ≤ ([1, 2, 1] : List Nat).toFinset.card) := by
  decide

/-- CLAIM C2, amended.  For any entry and any `RecordUsage` sequence routed
to it (with the accumulators staying below `2 ^ 64`): `period_count` equals
its start value plus the number of calls whose epoch differs from the epoch
stored just before the call — so it increases by at most 1 per call and only
on epoch changes; all of `period_count`, `total_ticks`, `items_processed`,
`items_attempted` (and `prims`) are non-decreasing after every call; epochs
1 then 2 yield `period_count = 2` while 1 then 1 yield `period_count = 1`;
`UpdateStats` leaves every non-active entry unchanged and `Lookup` leaves
the statistics of every existing entry unchanged, so the fields change only
via `RecordUsage` calls routed to the entry. -/
theorem stats_monotonic_amended {K : Type} [DecidableEq K] (toU64 : K → Nat)
    (gen : K → Option (List Nat)) (e : ActivePtr) (cs : List Call)
    (hframes : e.frames + cs.length < U64)
    (hticks : e.ticks + sumTicks cs < U64)
    (hactual : e.actual + sumActual cs < U64)
    (htotal : e.total + sumTotal cs < U64)
    (hprims : e.prims + sumPrims cs < U64) :
    (runCalls e cs).frames = e.frames + changeCount e.frame cs
    ∧ changeCount e.frame cs ≤ cs.length
    ∧ (∀ xs ys, cs = xs ++ ys →
        (runCalls e xs).frames ≤ (runCalls e cs).frames
        ∧ (runCalls e xs).ticks ≤ (runCalls e cs).ticks
        ∧ (runCalls e xs).actual ≤ (runCalls e cs).actual
        ∧ (runCalls e xs).total ≤ (runCalls e cs).total
        ∧ (runCalls e xs).prims ≤ (runCalls e cs).prims)
    ∧ (runCalls (freshEntry 0) [⟨1, 0, 0, 0, 0⟩, ⟨2, 0, 0, 0, 0⟩]).frames = 2
    ∧ (runCalls (freshEntry 0) [⟨1, 0, 0, 0, 0⟩, ⟨1, 0, 0, 0, 0⟩]).frames = 1
    ∧ (∀ (s : GSMapState K) (k : K) (fr t a tot p : Nat),
        s.m_active ≠ some k →
        alookup (updateStats s fr t a tot p).m_map_active k
          = alookup s.m_map_active k)
    ∧ (∀ (s : GSMapState K) (k k' : K) (e' : ActivePtr),
        alookup s.m_map_active k' = some e' →
        alookup (lookup toU64 gen s k).2.m_map_active k' = some e') := by
  refine ⟨runCalls_frames cs e hframes, changeCount_le_length cs e.frame,
    ?_, by decide, by decide, ?_, ?_⟩
  · intro xs ys hsplit
    subst hsplit
    rw [List.length_append] at hframes
    rw [sumTicks_append] at hticks
    rw [sumActual_append] at hactual
    rw [sumTotal_append] at htotal
    rw [sumPrims_append] at hprims
    have hfx : e.frames + xs.length < U64 := by omega
    have htx : e.ticks + sumTicks xs < U64 := by omega
    have hax : e.actual + sumActual xs < U64 := by omega
    have hox : e.total + sumTotal xs < U64 := by omega
    have hpx : e.prims + sumPrims xs < U64 := by omega
    have hfa : e.frames + (xs ++ ys).length < U64 := by
      rw [List.length_append]; omega
    have hta : e.ticks + sumTicks (xs ++ ys) < U64 := by
      rw [sumTicks_append]; omega
    have haa : e.actual + sumActual (xs ++ ys) < U64 := by
      rw [sumActual_append]; omega
    have hoa : e.total + sumTotal (xs ++ ys) < U64 := by
      rw [sumTotal_append]; omega
    have hpa : e.prims + sumPrims (xs ++ ys) < U64 := by
      rw [sumPrims_append]; omega
    refine ⟨?_, ?_, ?_, ?_, ?_⟩
    · rw [runCalls_frames xs e hfx, runCalls_frames (xs ++ ys) e hfa,
        changeCount_append]
      omega
    · rw [runCalls_ticks xs e htx, runCalls_ticks (xs ++ ys) e hta,
        sumTicks_append]
      omega
    · rw [runCalls_actual xs e hax, runCalls_actual (xs ++ ys) e haa,
        sumActual_append]
      omega
    · rw [runCalls_total xs e hox, runCalls_total (xs ++ ys) e hoa,
        sumTotal_append]
      omega
    · rw [runCalls_prims xs e hpx, runCalls_prims (xs ++ ys) e hpa,
        sumPrims_append]
      omega
  · intro s k fr t a tot p hact
    cases hma : s.m_active with
    | none => simp [updateStats, hma]
    | some k0 =>
      have hk : k ≠ k0 := fun hh => hact (by rw [hma, hh])
      simp only [updateStats, hma]
      exact alookup_replaceEntry_ne s.m_map_active k0 k _ hk
  · intro s k k' e' he'
    exact lookup_preserves_present toU64 gen s k k' e' he'

/-- Witness for the amended C2 theorem at a concrete one-call sequence. -/
theorem stats_monotonic_amended_witness :
    (runCalls (freshEntry 0) [⟨1, 10, 3, 4, 2⟩]).frames
      = (freshEntry 0).frames + changeCount (freshEntry 0).frame [⟨1, 10, 3, 4, 2⟩]
    ∧ changeCount (freshEntry 0).frame [⟨1, 10, 3, 4, 2⟩]
      ≤ ([⟨1, 10, 3, 4, 2⟩] : List Call).length := by
  have h := stats_monotonic_amended (K := Nat) id genOne (freshEntry 0)
    [⟨1, 10, 3, 4, 2⟩] (by decide) (by decide) (by decide) (by decide) (by decide)
  exact ⟨h.1, h.2.1⟩

/-- CLAIM C3.  If `Lookup(k)` succeeds with function `v` and post-state
`s1`, then the active-entry handle points to the entry for `k`, and a second
`Lookup(k)` returns the same function identity `v` and leaves the state
exactly `s1` — in particular the generation counter is unchanged, so
`GetDefaultFunction` was not invoked again, and the active-entry handle was
reassigned to the entry for `k` in both calls. -/
theorem lookup_idempotent {K : Type} [DecidableEq K] (toU64 : K → Nat)
    (gen : K → Option (List Nat)) (s s1 : GSMapState K) (k : K) (v : Nat)
    (h : lookup toU64 gen s k = (Except.ok v, s1)) :
    s1.m_active = some k
    ∧ lookup toU64 gen s1 k = (Except.ok v, s1)
    ∧ (lookup toU64 gen s1 k).2.cg.genCount = s1.cg.genCount := by
  obtain ⟨hact, e, he, hef⟩ := lookup_ok_dest toU64 gen s s1 k v h
  have h2 : lookup toU64 gen s1 k = (Except.ok e.f, { s1 with m_active := some k }) :=
    lookup_hit toU64 gen s1 k e he
  rw [setActive_eta s1 k hact] at h2
  rw [hef] at h2
  exact ⟨hact, h2, by rw [h2]⟩

/-- Witness for C3: two successive lookups of key 3 on the fresh cache. -/
theorem lookup_idempotent_witness :
    lookup id genOne ((lookup id genOne (initState Nat) 3).2) 3
      = (Except.ok 0, (lookup id genOne (initState Nat) 3).2) := by
  have h := lookup_idempotent id genOne (initState Nat)
    ((lookup id genOne (initState Nat) 3).2) 3 0 (by decide)
  exact h.2.1

/-- CLAIM C4.  Concrete scenario: a fresh entry for key 1 (created by its
first `Lookup`), then `RecordUsage(1, ticks=1000, processed=10,
attempted=12, items=10)` and `RecordUsage(1, ticks=500, processed=5,
attempted=5, items=5)`: the entry ends with `period_count = 1`,
`total_ticks = 1500`, `items_processed = 15`, `items_attempted = 17`
(and `prims = 15`). -/
theorem record_usage_concrete_scenario :
    alookup (updateStats (updateStats ((lookup id genOne (initState Nat) 1).2)
        1 1000 10 12 10) 1 500 5 5 5).m_map_active 1
      = some { frame := 1, frames := 1, prims := 15, ticks := 1500,
               actual := 15, total := 17, f := 0 } := by decide

/-- CLAIM C5.  For any entry already satisfying `actual ≤ total` (in
particular a fresh one) and any `RecordUsage` sequence routed to it in which
every call satisfies `items_attempted ≥ items_processed`, with the attempted
accumulator staying below `2 ^ 64`: after every call the cumulative
`items_attempted ≥ items_processed`, i.e. the debug assertion
`ASSERT(m_active->total >= m_active->actual)` never fires. -/
theorem attempted_ge_processed (e : ActivePtr) (cs : List Call)
    (h0 : e.actual ≤ e.total)
    (hcall : ∀ c ∈ cs, c.actual ≤ c.total)
    (hbound : e.total + sumTotal cs < U64) :
    ∀ xs ys, cs = xs ++ ys →
      (runCalls e xs).actual ≤ (runCalls e xs).total := by
  intro xs ys hsplit
  subst hsplit
  have hx : ∀ c ∈ xs, c.actual ≤ c.total :=
    fun c hc => hcall c (List.mem_append.mpr (Or.inl hc))
  have hsa : sumActual xs ≤ sumTotal xs := sumActual_le_sumTotal xs hx
  rw [sumTotal_append] at hbound
  have hxt : e.total + sumTotal xs < U64 := by omega
  have hxa : e.actual + sumActual xs < U64 := by omega
  rw [runCalls_actual xs e hxa, runCalls_total xs e hxt]
  omega

/-- Witness for C5 after the first call of a two-call sequence. -/
theorem attempted_ge_processed_witness :
    (runCalls (freshEntry 0) [⟨1, 1000, 10, 12, 10⟩]).actual
      ≤ (runCalls (freshEntry 0) [⟨1, 1000, 10, 12, 10⟩]).total :=
  attempted_ge_processed (freshEntry 0) [⟨1, 1000, 10, 12, 10⟩, ⟨1, 500, 5, 5, 5⟩]
    (by decide) (by decide) (by decide)
    [⟨1, 1000, 10, 12, 10⟩] [⟨1, 500, 5, 5, 5⟩] rfl

/-- CLAIM C6.  For a generation that actually runs (dedup miss, backend
emits `bytes`): if the emitted size reaches or exceeds `MAX_SIZE` the
overflow assertion fault path is triggered, and if it is strictly below
`MAX_SIZE` generation succeeds, commits exactly the emitted size to the
arena cursor, adds it to `m_total_code_size`, and records one generation
event. -/
theorem generation_size_bound {K : Type} (toU64 : K → Nat)
    (gen : K → Option (List Nat)) (cg : CGState) (key : K) (bytes : List Nat)
    (hcg : alookup cg.m_cgmap (toU64 key) = none)
    (hgen : gen key = some bytes) :
    (MAX_SIZE ≤ bytes.length →
      getDefaultFunction toU64 gen cg key = Except.error ())
    ∧ (bytes.length < MAX_SIZE →
      getDefaultFunction toU64 gen cg key = Except.ok (cg.cursor,
        { m_cgmap := (toU64 key, cg.cursor) :: cg.m_cgmap,
          cursor := cg.cursor + bytes.length,
          m_total_code_size := cg.m_total_code_size + bytes.length,
          genCount := cg.genCount + 1 })) := by
  constructor
  · intro h
    simp only [getDefaultFunction, hcg, hgen]
    rw [if_neg (Nat.not_lt.mpr h)]
  · intro h
    simp only [getDefaultFunction, hcg, hgen]
    rw [if_pos h]

/-- Witness for C6: the oversized stub (`MAX_SIZE` bytes) faults; the
one-byte stub succeeds and commits exactly one byte. -/
theorem generation_size_bound_witness :
    getDefaultFunction id genBig initCG 0 = Except.error ()
    ∧ getDefaultFunction id genOne initCG 0 = Except.ok (0, ⟨[(0, 0)], 1, 1, 1⟩) :=
  ⟨(generation_size_bound id genBig initCG 0 (List.replicate MAX_SIZE 0) rfl rfl).1
      (by simp),
   (generation_size_bound id genOne initCG 0 [144] rfl rfl).2 (by decide)⟩

/-- CLAIM C7.  If the first `Lookup(k)` misses the table, misses the dedup
index, and generation fails, then the lookup returns the failure with the
entry table (and subclass state) unchanged and the active handle cleared: no
half-initialized entry for `k` is reachable by later lookups. -/
theorem failed_generation_installs_no_entry {K : Type} [DecidableEq K]
    (toU64 : K → Nat) (gen : K → Option (List Nat)) (s : GSMapState K) (k : K)
    (hmap : alookup s.m_map_active k = none)
    (hcg : alookup s.cg.m_cgmap (toU64 k) = none)
    (hgen : gen k = none) :
    lookup toU64 gen s k = (Except.error (), { s with m_active := none })
    ∧ alookup ({ s with m_active := none } : GSMapState K).m_map_active k = none := by
  constructor
  · simp [lookup, getDefaultFunction, hmap, hcg, hgen]
  · simpa using hmap

/-- Witness for C7 on the fresh cache with the failing backend. -/
theorem failed_generation_installs_no_entry_witness :
    lookup id genNone (initState Nat) 0 = (Except.error (), initState Nat)
    ∧ alookup (initState Nat).m_map_active 0 = none :=
  failed_generation_installs_no_entry id genNone (initState Nat) 0 rfl rfl rfl

/-- CLAIM C8.  Calling `RecordUsage` on a cache on which no `Lookup` was
ever performed (the constructor state, where `m_active` is null) is a
no-op: the state is identical before and after, so no entry is created and
no statistics field changes. -/
theorem record_usage_without_lookup_noop {K : Type} [DecidableEq K]
    (frame ticks actual total prims : Nat) :
    updateStats (initState K) frame ticks actual total prims = initState K := rfl

/-- CLAIM C9.  A reachable state in which `PrintStats` divides by zero: after
`Lookup(1)` and `RecordUsage(1, ticks=100, processed=10, attempted=12,
work_units=0)`, the single entry has nonzero `frames` and `actual` and the
grand total is 100 ≠ 0, so the row passes the filter
`p->frames && p->actual && ttpf` — yet its `prims` is 0, the divisor of the
row's `p->actual / p->prims` column. -/
theorem report_division_by_zero_reachable :
    reportRows (updateStats ((lookup id genOne (initState Nat) 1).2) 1 100 10 12 0)
      = [(1, { frame := 1, frames := 1, prims := 0, ticks := 100,
               actual := 10, total := 12, f := 0 })]
    ∧ ttpfOf (updateStats ((lookup id genOne (initState Nat) 1).2) 1 100 10 12 0) = 100
    ∧ ({ frame := 1, frames := 1, prims := 0, ticks := 100,
         actual := 10, total := 12, f := 0 } : ActivePtr).prims = 0 := by decide

/-- CLAIM C10.  A fresh entry stores the sentinel `(uint64)-1` in `frame`;
if the first `RecordUsage` routed to it uses epoch `2^64 - 1`, the epoch
comparison sees no change, so `period_count` stays 0 while ticks and item
counts accumulate — and any entry with `period_count = 0` fails the report
row filter, so the key is omitted from the report despite having been
used. -/
theorem sentinel_epoch_first_usage {K : Type} [DecidableEq K] (toU64 : K → Nat)
    (gen : K → Option (List Nat)) (s s1 : GSMapState K) (k : K) (v : Nat)
    (hfresh : alookup s.m_map_active k = none)
    (hlk : lookup toU64 gen s k = (Except.ok v, s1))
    (t a tot p : Nat) :
    alookup (updateStats s1 (U64 - 1) t a tot p).m_map_active k
      = some ⟨U64 - 1, 0, p % U64, t % U64, a % U64, tot % U64, v⟩
    ∧ (∀ (s' : GSMapState K) (e : ActivePtr), e.frames = 0 → rowFilter s' e = false)
    ∧ k ∉ reportKeys (updateStats s1 (U64 - 1) t a tot p) := by
  obtain ⟨cg', hs1⟩ := lookup_miss_ok_dest toU64 gen s s1 k v hfresh hlk
  subst hs1
  have hmap2 : (updateStats
      (⟨(k, freshEntry v) :: s.m_map_active, some k, cg'⟩ : GSMapState K)
      (U64 - 1) t a tot p).m_map_active
      = (k, updateEntry (freshEntry v) ⟨U64 - 1, t, a, tot, p⟩) :: s.m_map_active := by
    simp [updateStats, replaceEntry]
  refine ⟨?_, ?_, ?_⟩
  · rw [hmap2, updateEntry_fresh_sentinel]
    simp [alookup]
  · intro s' e he
    simp [rowFilter, he]
  · intro hk
    rw [reportKeys, reportRows, List.mem_map] at hk
    obtain ⟨pr, hpr, hfst⟩ := hk
    rw [List.mem_filter] at hpr
    obtain ⟨hmem, hflt⟩ := hpr
    rw [hmap2, List.mem_cons] at hmem
    rcases hmem with rfl | hmem
    · rw [updateEntry_fresh_sentinel] at hflt
      simp [rowFilter] at hflt
    · exact alookup_none_not_mem_fst s.m_map_active k hfresh pr hmem hfst

/-- Witness for C10: key 3, first usage at epoch `2^64 - 1`. -/
theorem sentinel_epoch_first_usage_witness :
    alookup (updateStats ((lookup id genOne (initState Nat) 3).2)
        (U64 - 1) 5 6 7 8).m_map_active 3
      = some ⟨U64 - 1, 0, 8 % U64, 5 % U64, 6 % U64, 7 % U64, 0⟩
    ∧ 3 ∉ reportKeys (updateStats ((lookup id genOne (initState Nat) 3).2)
        (U64 - 1) 5 6 7 8) := by
  have h := sentinel_epoch_first_usage id genOne (initState Nat)
    ((lookup id genOne (initState Nat) 3).2) 3 0 rfl (by decide) 5 6 7 8
  exact ⟨h.1, h.2.2⟩
